import Mathlib

set_option maxRecDepth 10000

/-!
Verification development for the build-matrix orchestrator (`build.go` and its
unnamed variant). The Go program enumerates a cartesian product of build axes
(toolchain versions x target platforms x trim-path x link-mode x strip),
filters infeasible combinations, names each artifact deterministically from
its configuration via an FNV-32a hash of the JSON serialization with the
build timestamp zeroed, and runs builds under a channel-based counting
semaphore bounded by the CPU count.

All definitions below are shallow embeddings of the Go source. Strings are
modelled as Lean `String` (the Go code only ever manipulates ASCII data,
where Go's byte-oriented operations and Lean's char-oriented ones coincide;
the UTF-8 byte encoding used by the hash is modelled explicitly).
-/

namespace BuildVariants

/-- Config mirrors the Go struct `Config` of build.go: the immutable value
describing one build combination. `BuildTime` (Go `time.Time`) is modelled as
a natural number where `0` stands for the zero time `time.Time{}`. -/
structure Config where
  Name : String
  GoVersion : String
  GOOS : String
  LinkMode : String
  StripDebug : Bool
  TrimPath : Bool
  BuildTime : Nat
deriving DecidableEq, Repr

/-- utf8Bytes gives the UTF-8 encoding of a character as a list of byte
values, mirroring how Go strings are byte sequences fed to the hash. -/
def utf8Bytes (c : Char) : List Nat :=
  let n := c.toNat
  if n < 128 then [n]
  else if n < 2048 then [192 + n / 64, 128 + n % 64]
  else if n < 65536 then [224 + n / 4096, 128 + (n / 64) % 64, 128 + n % 64]
  else [240 + n / 262144, 128 + (n / 4096) % 64, 128 + (n / 64) % 64, 128 + n % 64]

/-- strBytes is the UTF-8 byte sequence of a string, as Go's `[]byte(s)`. -/
def strBytes (s : String) : List Nat :=
  (s.data.map utf8Bytes).flatten

/-- fnv32aStep is one step of FNV-1a as in Go's `hash/fnv` 32-bit variant:
xor the byte in, multiply by the FNV prime, reduce modulo 2^32. -/
def fnv32aStep (h b : Nat) : Nat :=
  ((h ^^^ b) * 16777619) % 4294967296

/-- fnv32a hashes a byte sequence with FNV-1a (32 bit), offset basis
2166136261, as `fnv.New32a()` followed by `Write` in `Config.OutputPath`. -/
def fnv32a (bs : List Nat) : Nat :=
  bs.foldl fnv32aStep 2166136261

/-- hexChar is the lowercase hex digit for a value below 16, as used by Go's
`encoding/hex`. -/
def hexChar (n : Nat) : Char :=
  if n < 10 then Char.ofNat (48 + n) else Char.ofNat (87 + n)

/-- hexByte renders one byte as two lowercase hex digits. -/
def hexByte (b : Nat) : String :=
  String.mk [hexChar (b / 16 % 16), hexChar (b % 16)]

/-- hashHex renders a 32-bit hash value as Go's
`hex.EncodeToString(h.Sum(nil))` does: four bytes, most significant first,
eight lowercase hex digits. -/
def hashHex (h : Nat) : String :=
  hexByte (h / 16777216 % 256) ++ hexByte (h / 65536 % 256) ++
    hexByte (h / 256 % 256) ++ hexByte (h % 256)

/-- jsonEscape models Go `encoding/json` string escaping (with its default
HTML escaping): quote, backslash, newline, carriage return and tab get their
short escapes, other control characters a `\u00XX` escape, and `<`, `>`, `&`
their `\u00XX` escapes; all other characters are kept literally. -/
def jsonEscape (s : String) : String :=
  String.join (s.data.map fun c =>
    if c = '"' then "\\\""
    else if c = '\\' then "\\\\"
    else if c = '\n' then "\\n"
    else if c = '\r' then "\\r"
    else if c = '\t' then "\\t"
    else if c.toNat < 32 then "\\u00" ++ hexByte c.toNat
    else if c = '<' then "\\u003c"
    else if c = '>' then "\\u003e"
    else if c = '&' then "\\u0026"
    else String.mk [c])

/-- jsonString is a JSON string literal with Go's escaping. -/
def jsonString (s : String) : String :=
  "\"" ++ jsonEscape s ++ "\""

/-- jsonBool is the JSON rendering of a Go bool. -/
def jsonBool (b : Bool) : String :=
  if b then "true" else "false"

/-- timeJson models `json.Marshal` of the `BuildTime` field (Go `time.Time`,
RFC 3339). The zero time `time.Time{}` marshals to `"0001-01-01T00:00:00Z"`;
that is the only value the source ever serializes, because `OutputPath`
zeroes `BuildTime` before marshalling; nonzero times are given a distinct
placeholder rendering that keeps the function total and injective. -/
def timeJson (t : Nat) : String :=
  if t = 0 then "\"0001-01-01T00:00:00Z\"" else "\"time+" ++ toString t ++ "\""

/-- jsonConfig models `json.Marshal` on the Go `Config` struct of build.go:
an object with the exported fields in declaration order. -/
def jsonConfig (c : Config) : String :=
  "\x7b\"Name\":" ++ jsonString c.Name ++
    ",\"GoVersion\":" ++ jsonString c.GoVersion ++
    ",\"GOOS\":" ++ jsonString c.GOOS ++
    ",\"LinkMode\":" ++ jsonString c.LinkMode ++
    ",\"StripDebug\":" ++ jsonBool c.StripDebug ++
    ",\"TrimPath\":" ++ jsonBool c.TrimPath ++
    ",\"BuildTime\":" ++ timeJson c.BuildTime ++ "\x7d"

/-- zeroBuildTime is the `snapshot` taken in `Config.OutputPath`: the config
with `BuildTime` replaced by the zero time. -/
def zeroBuildTime (c : Config) : Config :=
  { c with BuildTime := 0 }

/-- fingerprint is the hash component of the output file name: the lowercase
hex of the FNV-32a hash of the JSON serialization of the config with
`BuildTime` zeroed (build.go lines 78-86). -/
def fingerprint (c : Config) : String :=
  hashHex (fnv32a (strBytes (jsonConfig (zeroBuildTime c))))

/-- outputPath models `Config.OutputPath` of build.go. The Go expression
`c.LinkMode[:3]` panics when the link mode has fewer than 3 characters; the
panic is modelled by returning `none`. `filepath.Join(out, name)` is modelled
as prefixing `"dist/"` (the names built here contain no separators, so Go's
path cleaning is the identity on them). -/
def outputPath (c : Config) : Option String :=
  if 3 ≤ c.LinkMode.length then
    let name := c.Name ++ "-" ++ c.GoVersion ++ "-" ++ c.GOOS ++ "-" ++
      c.LinkMode.take 3 ++ "lnk"
    let name := if c.StripDebug then name ++ "-strip" else name
    let name := if c.TrimPath then name ++ "-trimpath" else name
    let snapshot := zeroBuildTime c
    let name := name ++ "-" ++ hashHex (fnv32a (strBytes (jsonConfig snapshot)))
    let name := if c.GOOS = "windows" then name ++ ".exe" else name
    some ("dist/" ++ name)
  else
    none

/-- eqExceptBuildTime holds when two configs agree on every field except
`BuildTime`, the identity relation the spec's fingerprint invariant uses. -/
def eqExceptBuildTime (c₁ c₂ : Config) : Prop :=
  c₁.Name = c₂.Name ∧ c₁.GoVersion = c₂.GoVersion ∧ c₁.GOOS = c₂.GOOS ∧
    c₁.LinkMode = c₂.LinkMode ∧ c₁.StripDebug = c₂.StripDebug ∧
    c₁.TrimPath = c₂.TrimPath

instance (c₁ c₂ : Config) : Decidable (eqExceptBuildTime c₁ c₂) := by
  unfold eqExceptBuildTime; infer_instance

/-- hasSuffixStr models Go `strings.HasSuffix` at the character level: the
last `suffix.length` characters of `s` equal `suffix` (when `suffix` is
longer than `s` the truncated comparison fails on length, as in Go). -/
def hasSuffixStr (s suffix : String) : Bool :=
  s.data.drop (s.data.length - suffix.data.length) == suffix.data

/-- dropRightStr drops the last `n` characters of a string, modelling Go's
`s[:len(s)-n]` for an ASCII tail. -/
def dropRightStr (s : String) (n : Nat) : String :=
  String.mk (s.data.take (s.data.length - n))

/-- trimSuffixStr models Go `strings.TrimSuffix`: drop the suffix when
present, otherwise return the string unchanged. -/
def trimSuffixStr (s suffix : String) : String :=
  if hasSuffixStr s suffix then dropRightStr s suffix.length else s

/-- upxOut is the output path computed by the `upx` function of build.go
(lines 180-188): trim a trailing `.exe`, append `-upx`, and restore the
`.exe` extension when the input had one. -/
def upxOut (exe : String) : String :=
  let o := trimSuffixStr exe ".exe" ++ "-upx"
  if hasSuffixStr exe ".exe" then o ++ ".exe" else o

/-- upxCommand is the argument vector of the compressor invocation
`mustRun("upx", "-qq", "-f", "-o", out, exe)` in build.go: executable name
first, then the arguments. -/
def upxCommand (exe : String) : List String :=
  ["upx", "-qq", "-f", "-o", upxOut exe, exe]

/-- Combo is one point of the cartesian product iterated by the five nested
loops of `main` (build.go lines 111-115), in loop-variable order. -/
structure Combo where
  exe : String
  GOOS : String
  trimpath : Bool
  linkmode : String
  strip : Bool
deriving DecidableEq, Repr

/-- combos lists the cartesian product of the axes in exactly the order the
nested loops of `main` visit it: versions outermost, then platforms,
trim-path, link-mode, strip innermost. -/
def combos (versions platforms : List String) (trims : List Bool)
    (linkmodes : List String) (strips : List Bool) : List Combo :=
  versions.flatMap fun exe =>
    platforms.flatMap fun GOOS =>
      trims.flatMap fun trimpath =>
        linkmodes.flatMap fun linkmode =>
          strips.map fun strip => ⟨exe, GOOS, trimpath, linkmode, strip⟩

/-- digitsVal parses a nonempty all-digit character list to its decimal
value; any other input yields `none`. -/
def digitsVal (ds : List Char) : Option Nat :=
  if ds = [] then none
  else
    ds.foldl
      (fun acc? c =>
        match acc? with
        | none => none
        | some acc => if c.isDigit then some (acc * 10 + (c.toNat - 48)) else none)
      (some 0)

/-- atoi models Go `strconv.Atoi`: an optional sign followed by at least one
digit; anything else is an error (`none`). Go additionally errors on values
outside the machine int range, which never occurs for the version components
this program parses, so the model leaves values unbounded. -/
def atoi (s : String) : Option Int :=
  match s.data with
  | '+' :: ds => (digitsVal ds).map fun n => (n : Int)
  | '-' :: ds => (digitsVal ds).map fun n => -(n : Int)
  | ds => (digitsVal ds).map fun n => (n : Int)

/-- splitCharsOnDot splits a character list at every `'.'`, keeping empty
components, as Go `strings.Split(s, ".")` does for the one-byte separator. -/
def splitCharsOnDot : List Char → List (List Char)
  | [] => [[]]
  | c :: rest =>
    let r := splitCharsOnDot rest
    if c = '.' then [] :: r
    else
      match r with
      | h :: t => (c :: h) :: t
      | [] => [[c]]

/-- splitOnDot models Go `strings.Split(version, ".")`. -/
def splitOnDot (s : String) : List String :=
  (splitCharsOnDot s.data).map String.mk

/-- parseMinor models `strconv.Atoi(strings.Split(version, ".")[1])`
(build.go line 121). The Go index expression panics when the version string
has no dot; that panic and an `Atoi` failure are both modelled as `none`. -/
def parseMinor (version : String) : Option Int :=
  match (splitOnDot version).get? 1 with
  | none => none
  | some s => atoi s

/-- EnumCtx carries the inputs of the enumeration that are fixed for one run
of `main`: the version self-report of each toolchain executable (the pure
boundary model of `goVersion`), the host platform `runtime.GOOS`, the
artifact name, and the shared build time. -/
structure EnumCtx where
  goVersionOf : String → String
  hostOS : String
  name : String
  buildTime : Nat

/-- enumBody is the body of the innermost loop of `main` (build.go lines
116-141) for one combination: query and check the toolchain's self-reported
version (a mismatch is a fatal error), parse the minor version (a parse
failure is a fatal error), apply the trim-path filter and the cross-link
filter (`.ok none` models `continue`), and otherwise construct the Config
exactly as the source does. -/
def enumBody (ctx : EnumCtx) (t : Combo) : Except String (Option Config) :=
  let version := ctx.goVersionOf t.exe
  if version ≠ t.exe then
    .error ("inconsistent go version: exe=" ++ t.exe ++ ", version=" ++ version)
  else
    match parseMinor version with
    | none => .error ("cannot parse minor version of " ++ version)
    | some v =>
      if t.trimpath ∧ v < 13 then .ok none
      else if t.linkmode = "external" ∧ ctx.hostOS ≠ t.GOOS then .ok none
      else
        .ok (some
          { Name := ctx.name, GoVersion := version, GOOS := t.GOOS,
            LinkMode := t.linkmode, StripDebug := t.strip,
            TrimPath := t.trimpath, BuildTime := ctx.buildTime })

/-- runCombos folds the loop body over a list of combinations in order: the
first fatal error aborts the run (as a Go panic does), a skipped combination
contributes nothing, and a kept combination contributes its Config. -/
def runCombos (ctx : EnumCtx) : List Combo → Except String (List Config)
  | [] => .ok []
  | t :: ts =>
    match enumBody ctx t with
    | .error e => .error e
    | .ok none => runCombos ctx ts
    | .ok (some c) =>
      match runCombos ctx ts with
      | .error e => .error e
      | .ok cfgs => .ok (c :: cfgs)

/-- enumerate is the matrix enumeration of `main`: the loop body run over
the whole cartesian product in loop order. -/
def enumerate (versions platforms : List String) (trims : List Bool)
    (linkmodes : List String) (strips : List Bool) (ctx : EnumCtx) :
    Except String (List Config) :=
  runCombos ctx (combos versions platforms trims linkmodes strips)

/-- mkConfig is the Config literal built at build.go lines 133-141 for a
given combination. -/
def mkConfig (ctx : EnumCtx) (t : Combo) : Config :=
  { Name := ctx.name, GoVersion := ctx.goVersionOf t.exe, GOOS := t.GOOS,
    LinkMode := t.linkmode, StripDebug := t.strip, TrimPath := t.trimpath,
    BuildTime := ctx.buildTime }

/-- keptBySpec is the spec-side description of the enumerator's output used
by the completeness claim: a combination of the cartesian product is kept
exactly when the trim-path filter (minor version below 13) and the
cross-link filter (external link mode off the host platform) both pass. -/
def keptBySpec (ctx : EnumCtx) (t : Combo) : Option Config :=
  match parseMinor (ctx.goVersionOf t.exe) with
  | none => none
  | some v =>
    if t.trimpath ∧ v < 13 then none
    else if t.linkmode = "external" ∧ ctx.hostOS ≠ t.GOOS then none
    else some (mkConfig ctx t)

/-- sourceVersions is the hard-coded toolchain list of build.go. -/
def sourceVersions : List String :=
  ["go1.10.8", "go1.11.13", "go1.12.17", "go1.13.8", "go1.14"]

/-- sourcePlatforms is the hard-coded target platform list of build.go. -/
def sourcePlatforms : List String :=
  ["linux", "darwin", "windows"]

/-- SemState abstracts one instant of `main`'s scheduling (build.go lines
110-158): `remaining` combinations still to be dispatched by the loop nest,
`active` goroutines spawned and not yet past their final `<-sem`, `held` the
occupancy of the buffered channel `sem`, and `drained` the number of sends
completed by the final drain loop `for n := cap(sem); n > 0; n--`. -/
structure SemState where
  remaining : Nat
  active : Nat
  held : Nat
  drained : Nat
deriving DecidableEq, Repr

/-- SemStep is the interleaving semantics of the semaphore pattern of
`main`, for a channel of capacity `N` (`runtime.NumCPU()`):
`spawn` is the main loop executing `sem <- struct{}{}` followed by the `go`
statement for the next combination, possible only while the buffered channel
has room; `finish` is a running goroutine completing its work and executing
its trailing `<-sem`, possible only while the channel is nonempty; `drain`
is one send of the final loop of `main`, which starts only after the loop
nest has dispatched every combination. -/
inductive SemStep (N : Nat) : SemState → SemState → Prop where
  | spawn (s : SemState) (hr : 0 < s.remaining) (hh : s.held < N) :
      SemStep N s ⟨s.remaining - 1, s.active + 1, s.held + 1, s.drained⟩
  | finish (s : SemState) (ha : 0 < s.active) (hh : 0 < s.held) :
      SemStep N s ⟨s.remaining, s.active - 1, s.held - 1, s.drained⟩
  | drain (s : SemState) (hr : s.remaining = 0) (hd : s.drained < N) (hh : s.held < N) :
      SemStep N s ⟨0, s.active, s.held + 1, s.drained + 1⟩

/-- SemReach is reachability from the initial state of a run over `K`
combinations: no goroutine spawned, the channel empty, nothing drained. -/
inductive SemReach (N K : Nat) : SemState → Prop where
  | init : SemReach N K ⟨K, 0, 0, 0⟩
  | step {s t : SemState} : SemReach N K s → SemStep N s t → SemReach N K t

/-- semInvariant is the inductive invariant of the semaphore: the channel
occupancy is exactly the spawned-and-unreleased goroutines plus the drain
sends, and never exceeds the capacity. -/
def semInvariant (N : Nat) (s : SemState) : Prop :=
  s.held = s.active + s.drained ∧ s.held ≤ N

/-- sampleConfig is a representative configuration the program itself can
build (artifact name and link mode as in build.go). -/
def sampleConfig : Config :=
  { Name := "hello", GoVersion := "go1.14", GOOS := "linux",
    LinkMode := "internal", StripDebug := false, TrimPath := false,
    BuildTime := 7 }

/-- sampleConfigLater is sampleConfig rebuilt at a later wall-clock time. -/
def sampleConfigLater : Config :=
  { sampleConfig with BuildTime := 99 }

/-- nameCollisionA pairs with nameCollisionB: the two differ only in `Name`,
yet the FNV-32a hashes of their zero-time JSON serializations coincide
(found by a birthday search over the 32-bit hash space). -/
def nameCollisionA : Config :=
  { Name := "naaaxyao", GoVersion := "go1.14", GOOS := "linux",
    LinkMode := "internal", StripDebug := false, TrimPath := false,
    BuildTime := 0 }

/-- nameCollisionB differs from nameCollisionA only in `Name` and hashes to
the same fingerprint. -/
def nameCollisionB : Config :=
  { nameCollisionA with Name := "naaa0kia" }

/-- linkCollisionA pairs with linkCollisionB: the two differ only in the
tail of `LinkMode` (both start with `int`), and the FNV-32a hashes of their
zero-time JSON serializations coincide, so the full output paths coincide
although the configurations differ. -/
def linkCollisionA : Config :=
  { Name := "hello", GoVersion := "go1.14", GOOS := "linux",
    LinkMode := "intaaaktzx", StripDebug := false, TrimPath := false,
    BuildTime := 0 }

/-- linkCollisionB differs from linkCollisionA only in `LinkMode` yet
resolves to the same output path. -/
def linkCollisionB : Config :=
  { linkCollisionA with LinkMode := "intaaa51cd" }

/-- shortLinkConfig has a two-character link mode, under which the Go
expression `c.LinkMode[:3]` in `OutputPath` is out of bounds. -/
def shortLinkConfig : Config :=
  { Name := "hello", GoVersion := "go1.14", GOOS := "linux", LinkMode := "in",
    StripDebug := false, TrimPath := false, BuildTime := 0 }

/-- scenarioCtx is the context of the spec's synthetic end-to-end scenario:
every toolchain reports itself faithfully, the host platform is linux. -/
def scenarioCtx : EnumCtx :=
  { goVersionOf := fun s => s, hostOS := "linux", name := "hello",
    buildTime := 7 }

/-- scenarioConfig abbreviates the configs of the synthetic scenario, whose
link mode is fixed to internal and strip to false. -/
def scenarioConfig (v g : String) (t : Bool) : Config :=
  { Name := "hello", GoVersion := v, GOOS := g, LinkMode := "internal",
    StripDebug := false, TrimPath := t, BuildTime := 7 }

/-- mismatchCtx is a context whose every toolchain self-reports `go1.14`,
so any executable listed under a different name fails the consistency
check. -/
def mismatchCtx : EnumCtx :=
  { goVersionOf := fun _ => "go1.14", hostOS := "linux", name := "hello",
    buildTime := 7 }

/-- scenarioList is the expected enumeration of the synthetic scenario, in
loop order. -/
def scenarioList : List Config :=
  [scenarioConfig "1.12" "linux" false, scenarioConfig "1.12" "windows" false,
   scenarioConfig "1.13" "linux" false, scenarioConfig "1.13" "linux" true,
   scenarioConfig "1.13" "windows" false, scenarioConfig "1.13" "windows" true]

/-! Helper lemmas about the enumeration fold and the semaphore model. -/

/-- Every reachable state of the semaphore satisfies the channel-occupancy
invariant. -/
theorem semInvariant_of_reach {N K : Nat} {s : SemState} (h : SemReach N K s) :
    semInvariant N s := by
  induction h with
  | init => exact ⟨rfl, Nat.zero_le N⟩
  | step _ hstep ih =>
    obtain ⟨ih1, ih2⟩ := ih
    unfold semInvariant
    cases hstep with
    | spawn hr hh => dsimp only; omega
    | finish ha hh => dsimp only; omega
    | drain hr hd hh => dsimp only; omega

/-- A successful run of the loop body over a combination list means the body
succeeded on every combination in it. -/
theorem runCombos_ok_body {ctx : EnumCtx} :
    ∀ {ts : List Combo} {cfgs : List Config},
      runCombos ctx ts = .ok cfgs → ∀ t ∈ ts, ∃ r, enumBody ctx t = .ok r := by
  intro ts
  induction ts with
  | nil => intro cfgs _ t ht; cases ht
  | cons hd tl ih =>
    intro cfgs h t ht
    rcases List.mem_cons.mp ht with rfl | htl
    · cases hb : enumBody ctx t with
      | error e => simp [runCombos, hb] at h
      | ok r => exact ⟨r, rfl⟩
    · cases hb : enumBody ctx hd with
      | error e => simp [runCombos, hb] at h
      | ok r =>
        simp only [runCombos, hb] at h
        cases r with
        | none => exact ih h t htl
        | some c =>
          cases hrec : runCombos ctx tl with
          | error e => simp [hrec] at h
          | ok cs => exact ih hrec t htl

/-- Membership in the result of a successful run is membership of some kept
combination's config. -/
theorem runCombos_ok_mem {ctx : EnumCtx} :
    ∀ {ts : List Combo} {cfgs : List Config},
      runCombos ctx ts = .ok cfgs →
      ∀ c : Config, c ∈ cfgs ↔ ∃ t ∈ ts, enumBody ctx t = .ok (some c) := by
  intro ts
  induction ts with
  | nil =>
    intro cfgs h c
    simp only [runCombos] at h
    cases h
    simp
  | cons hd tl ih =>
    intro cfgs h c
    cases hb : enumBody ctx hd with
    | error e => simp [runCombos, hb] at h
    | ok r =>
      simp only [runCombos, hb] at h
      cases r with
      | none =>
        rw [ih h c]
        constructor
        · rintro ⟨t, htl, hbt⟩; exact ⟨t, List.mem_cons_of_mem _ htl, hbt⟩
        · rintro ⟨t, ht, hbt⟩
          rcases List.mem_cons.mp ht with rfl | htl
          · rw [hb] at hbt; cases hbt
          · exact ⟨t, htl, hbt⟩
      | some c' =>
        cases hrec : runCombos ctx tl with
        | error e => simp [hrec] at h
        | ok cs =>
          simp only [hrec] at h
          cases h
          constructor
          · intro hc
            rcases List.mem_cons.mp hc with rfl | hcs
            · exact ⟨hd, List.mem_cons_self hd tl, hb⟩
            · obtain ⟨t, htl, hbt⟩ := (ih hrec c).mp hcs
              exact ⟨t, List.mem_cons_of_mem _ htl, hbt⟩
          · rintro ⟨t, ht, hbt⟩
            rcases List.mem_cons.mp ht with rfl | htl
            · rw [hb] at hbt
              injection hbt with hbt'
              injection hbt' with hbt''
              rw [hbt'']
              exact List.mem_cons_self _ _
            · exact List.mem_cons_of_mem _ ((ih hrec c).mpr ⟨t, htl, hbt⟩)

/-- A fatal body error on any listed combination makes the whole run
fatal. -/
theorem runCombos_error_of_body_error {ctx : EnumCtx} :
    ∀ {ts : List Combo} {t : Combo} {e : String},
      t ∈ ts → enumBody ctx t = .error e →
      ∃ e', runCombos ctx ts = .error e' := by
  intro ts
  induction ts with
  | nil => intro t e ht _; cases ht
  | cons hd tl ih =>
    intro t e ht hbt
    rcases List.mem_cons.mp ht with rfl | htl
    · exact ⟨e, by simp [runCombos, hbt]⟩
    · cases hb : enumBody ctx hd with
      | error e'' => exact ⟨e'', by simp [runCombos, hb]⟩
      | ok r =>
        obtain ⟨e', he'⟩ := ih htl hbt
        cases r with
        | none => exact ⟨e', by simp [runCombos, hb, he']⟩
        | some c =>
          exact ⟨e', by simp [runCombos, hb, he']⟩

/-- Inversion of a non-fatal loop body: the version self-check passed, the
minor version parsed, and the result is exactly what the two filters
dictate. -/
theorem enumBody_ok_inv {ctx : EnumCtx} {t : Combo} {r : Option Config}
    (h : enumBody ctx t = .ok r) :
    ctx.goVersionOf t.exe = t.exe ∧
      ∃ v : Int, parseMinor (ctx.goVersionOf t.exe) = some v ∧
        r = (if t.trimpath ∧ v < 13 then none
             else if t.linkmode = "external" ∧ ctx.hostOS ≠ t.GOOS then none
             else some (mkConfig ctx t)) := by
  simp only [enumBody] at h
  by_cases hv : ctx.goVersionOf t.exe = t.exe
  · rw [if_neg (fun hc => hc hv)] at h
    refine ⟨hv, ?_⟩
    cases hpm : parseMinor (ctx.goVersionOf t.exe) with
    | none => simp only [hpm] at h; cases h
    | some v =>
      simp only [hpm] at h
      refine ⟨v, rfl, ?_⟩
      by_cases h1 : t.trimpath ∧ v < 13
      · rw [if_pos h1] at h; rw [if_pos h1]; cases h; rfl
      · rw [if_neg h1] at h; rw [if_neg h1]
        by_cases h2 : t.linkmode = "external" ∧ ctx.hostOS ≠ t.GOOS
        · rw [if_pos h2] at h; rw [if_pos h2]; cases h; rfl
        · rw [if_neg h2] at h; rw [if_neg h2]; cases h; rfl
  · rw [if_pos hv] at h; cases h

/-- The loop body keeps a combination when the version self-check passes,
the minor version parses, and both filters pass. -/
theorem enumBody_ok_some_of {ctx : EnumCtx} {t : Combo} {v : Int}
    (hv : ctx.goVersionOf t.exe = t.exe)
    (hpm : parseMinor (ctx.goVersionOf t.exe) = some v)
    (h1 : ¬(t.trimpath ∧ v < 13))
    (h2 : ¬(t.linkmode = "external" ∧ ctx.hostOS ≠ t.GOOS)) :
    enumBody ctx t = .ok (some (mkConfig ctx t)) := by
  simp only [enumBody, hpm]
  rw [if_neg (fun hc => hc hv), if_neg h1, if_neg h2]
  rfl

/-- A version self-report mismatch makes the loop body fatal. -/
theorem enumBody_error_of_mismatch {ctx : EnumCtx} {t : Combo}
    (hv : ctx.goVersionOf t.exe ≠ t.exe) :
    ∃ e, enumBody ctx t = .error e := by
  refine ⟨"inconsistent go version: exe=" ++ t.exe ++ ", version=" ++
    ctx.goVersionOf t.exe, ?_⟩
  simp only [enumBody]
  rw [if_pos hv]

/-- A minor-version parse failure makes the loop body fatal (the parse is
reached once the version self-check has passed). -/
theorem enumBody_error_of_parse_failure {ctx : EnumCtx} {t : Combo}
    (hv : ctx.goVersionOf t.exe = t.exe)
    (hpm : parseMinor (ctx.goVersionOf t.exe) = none) :
    ∃ e, enumBody ctx t = .error e := by
  refine ⟨"cannot parse minor version of " ++ ctx.goVersionOf t.exe, ?_⟩
  simp only [enumBody, hpm]
  rw [if_neg (fun hc => hc hv)]

/-- The loop body agrees with the spec-side filter description whenever it
does not abort. -/
theorem keptBySpec_of_enumBody_ok {ctx : EnumCtx} {t : Combo} {r : Option Config}
    (h : enumBody ctx t = .ok r) : keptBySpec ctx t = r := by
  obtain ⟨hv, v, hpm, hr⟩ := enumBody_ok_inv h
  unfold keptBySpec
  simp only [hpm]
  exact hr.symm

/-- A successful run's output is the spec-side filter applied pointwise to
the combination list. -/
theorem runCombos_ok_filterMap {ctx : EnumCtx} :
    ∀ {ts : List Combo} {cfgs : List Config},
      runCombos ctx ts = .ok cfgs → cfgs = ts.filterMap (keptBySpec ctx) := by
  intro ts
  induction ts with
  | nil => intro cfgs h; simp only [runCombos] at h; cases h; rfl
  | cons hd tl ih =>
    intro cfgs h
    cases hb : enumBody ctx hd with
    | error e => simp [runCombos, hb] at h
    | ok r =>
      simp only [runCombos, hb] at h
      have hk := keptBySpec_of_enumBody_ok (r := r) (by rw [hb])
      cases r with
      | none =>
        simp only [List.filterMap_cons, hk]
        exact ih h
      | some c =>
        cases hrec : runCombos ctx tl with
        | error e => simp [hrec] at h
        | ok cs =>
          simp only [hrec] at h
          cases h
          simp only [List.filterMap_cons, hk]
          rw [ih hrec]

/-- A combination whose components all lie on the axes is visited by the
loop nest. -/
theorem mem_combos_of {vs ps : List String} {trs : List Bool}
    {ls : List String} {ss : List Bool} {exe GOOS : String} {trimpath : Bool}
    {linkmode : String} {strip : Bool}
    (h1 : exe ∈ vs) (h2 : GOOS ∈ ps) (h3 : trimpath ∈ trs)
    (h4 : linkmode ∈ ls) (h5 : strip ∈ ss) :
    (⟨exe, GOOS, trimpath, linkmode, strip⟩ : Combo) ∈ combos vs ps trs ls ss := by
  simp only [combos, List.mem_flatMap, List.mem_map]
  exact ⟨exe, h1, GOOS, h2, trimpath, h3, linkmode, h4, strip, h5, rfl⟩

/-! Claim theorems. -/

/-- C1: two Config values equal in every field except BuildTime resolve to
the same output path, because the fingerprint hash is computed over the
config with BuildTime zeroed. -/
theorem outputPath_ignores_buildTime (c₁ c₂ : Config)
    (h : eqExceptBuildTime c₁ c₂) : outputPath c₁ = outputPath c₂ := by
  cases c₁; cases c₂
  simp only [eqExceptBuildTime] at h
  obtain ⟨rfl, rfl, rfl, rfl, rfl, rfl⟩ := h
  rfl

/-- Witness for C1: the sample config rebuilt at a different time keeps its
output path. -/
theorem outputPath_ignores_buildTime_witness :
    eqExceptBuildTime sampleConfig sampleConfigLater ∧
      outputPath sampleConfig = outputPath sampleConfigLater :=
  ⟨by decide,
   outputPath_ignores_buildTime sampleConfig sampleConfigLater (by decide)⟩

/-- C4 (counterexample): fingerprint equality does not imply equality of the
non-BuildTime fields, and two configs differing in a non-BuildTime field can
share the full output filename: the 32-bit FNV hash has collisions. The
first pair differs only in Name yet fingerprints identically; the second
pair differs only in LinkMode (sharing the first three characters) yet
resolves to the identical output path. -/
theorem fingerprint_collision_counterexample :
    (fingerprint nameCollisionA = fingerprint nameCollisionB ∧
      nameCollisionA.Name ≠ nameCollisionB.Name ∧
      nameCollisionA.GoVersion = nameCollisionB.GoVersion ∧
      nameCollisionA.GOOS = nameCollisionB.GOOS ∧
      nameCollisionA.LinkMode = nameCollisionB.LinkMode ∧
      nameCollisionA.StripDebug = nameCollisionB.StripDebug ∧
      nameCollisionA.TrimPath = nameCollisionB.TrimPath ∧
      nameCollisionA.BuildTime = nameCollisionB.BuildTime) ∧
    (linkCollisionA ≠ linkCollisionB ∧
      linkCollisionA.BuildTime = linkCollisionB.BuildTime ∧
      outputPath linkCollisionA =
        some "dist/hello-go1.14-linux-intlnk-85f4b0b0" ∧
      outputPath linkCollisionB =
        some "dist/hello-go1.14-linux-intlnk-85f4b0b0") := by
  constructor
  · exact ⟨by decide, by decide, by decide, by decide, by decide, by decide,
      by decide, by decide⟩
  · exact ⟨by decide, by decide, by decide, by decide⟩

/-- C4 (amended): equality of all fields except BuildTime still guarantees
equality of fingerprints (the direction of the spec's iff that survives);
the converse fails in the 32-bit hash space, as the counterexample shows. -/
theorem fingerprint_ignores_buildTime (c₁ c₂ : Config)
    (h : eqExceptBuildTime c₁ c₂) : fingerprint c₁ = fingerprint c₂ := by
  cases c₁; cases c₂
  simp only [eqExceptBuildTime] at h
  obtain ⟨rfl, rfl, rfl, rfl, rfl, rfl⟩ := h
  rfl

/-- Witness for the amended C4. -/
theorem fingerprint_ignores_buildTime_witness :
    eqExceptBuildTime sampleConfig sampleConfigLater ∧
      fingerprint sampleConfig = fingerprint sampleConfigLater :=
  ⟨by decide,
   fingerprint_ignores_buildTime sampleConfig sampleConfigLater (by decide)⟩

/-- C5: the output filename follows the documented scheme: artifact name,
toolchain version, target platform, first three characters of the link mode
followed by `lnk`, a `-strip` marker exactly when debug symbols are
stripped, a `-trimpath` marker exactly when paths are trimmed, the hex of
the 32-bit hash of the canonical serialization with BuildTime zeroed, an
`.exe` extension exactly for windows, all under the fixed output
directory. -/
theorem outputPath_scheme (c : Config) (h : 3 ≤ c.LinkMode.length) :
    outputPath c =
      some ("dist/" ++ c.Name ++ "-" ++ c.GoVersion ++ "-" ++ c.GOOS ++ "-" ++
        c.LinkMode.take 3 ++ "lnk" ++
        (if c.StripDebug then "-strip" else "") ++
        (if c.TrimPath then "-trimpath" else "") ++
        "-" ++ fingerprint c ++
        (if c.GOOS = "windows" then ".exe" else "")) := by
  simp only [outputPath, fingerprint, if_pos h]
  by_cases hs : c.StripDebug = true <;> by_cases ht : c.TrimPath = true <;>
    by_cases hw : c.GOOS = "windows" <;>
      simp [hs, ht, hw, String.append_assoc]

/-- Witness for C5 at the sample config. -/
theorem outputPath_scheme_witness :
    outputPath sampleConfig =
      some ("dist/" ++ sampleConfig.Name ++ "-" ++ sampleConfig.GoVersion ++
        "-" ++ sampleConfig.GOOS ++ "-" ++ sampleConfig.LinkMode.take 3 ++
        "lnk" ++
        (if sampleConfig.StripDebug then "-strip" else "") ++
        (if sampleConfig.TrimPath then "-trimpath" else "") ++
        "-" ++ fingerprint sampleConfig ++
        (if sampleConfig.GOOS = "windows" then ".exe" else "")) :=
  outputPath_scheme sampleConfig (by decide)

/-- C9: the compression step inserts `-upx` before the `.exe` extension when
one is present and appends it otherwise, and invokes the compressor with the
new path as the output flag and the original artifact as input (which the
compressor leaves untouched). -/
theorem upxPath_scheme (p : String) :
    (hasSuffixStr p ".exe" = true →
      upxOut p = dropRightStr p 4 ++ "-upx" ++ ".exe") ∧
    (hasSuffixStr p ".exe" = false → upxOut p = p ++ "-upx") ∧
    upxCommand p = ["upx", "-qq", "-f", "-o", upxOut p, p] := by
  have h4 : String.length ".exe" = 4 := rfl
  refine ⟨?_, ?_, rfl⟩
  · intro hsfx
    simp [upxOut, trimSuffixStr, hsfx, h4]
  · intro hsfx
    simp [upxOut, trimSuffixStr, hsfx]

/-- Witness for C9 on one path with the extension and one without. -/
theorem upxPath_scheme_witness :
    upxOut "dist/a.exe" = dropRightStr "dist/a.exe" 4 ++ "-upx" ++ ".exe" ∧
      upxOut "dist/b" = "dist/b" ++ "-upx" :=
  ⟨(upxPath_scheme "dist/a.exe").1 (by decide),
   (upxPath_scheme "dist/b").2.1 (by decide)⟩

/-- C10: OutputPath slices the first three characters of the link mode, so
it succeeds for the enum values `internal` and `external`, and the Go slice
expression panics for some link mode shorter than three characters. -/
theorem linkMode_slice_totality :
    (∀ c : Config, c.LinkMode = "internal" ∨ c.LinkMode = "external" →
      (outputPath c).isSome = true) ∧
    (∃ c : Config, c.LinkMode.length < 3 ∧ outputPath c = none) := by
  constructor
  · intro c hc
    rcases hc with hc | hc <;>
      · simp only [outputPath, hc]
        rw [if_pos (by decide)]
        rfl
  · exact ⟨shortLinkConfig, by decide, by decide⟩

/-- Witness for C10 at the sample config. -/
theorem linkMode_slice_totality_witness :
    (outputPath sampleConfig).isSome = true :=
  linkMode_slice_totality.1 sampleConfig (Or.inl rfl)

/-- C2: in any matrix the enumerator produces, a combination with trim-path
requested always has a parsed minor version of at least 13 (so minor
versions below 13 with trim-path never appear), and any trim-path
combination on the axes whose minor version is at least 13 and which passes
the cross-link filter does appear; the minor version is the second
dot-delimited component, every enumerated config has a parseable minor
version, and a parse failure is fatal: a listed toolchain whose version
self-report matches but whose minor version does not parse makes the whole
enumeration return an error rather than a result. -/
theorem trimpath_filter (vs ps : List String) (trs : List Bool)
    (ls : List String) (ss : List Bool) (ctx : EnumCtx) :
    (∀ cfgs : List Config, enumerate vs ps trs ls ss ctx = .ok cfgs →
      (∀ c ∈ cfgs, c.TrimPath = true →
        ∃ v : Int, parseMinor c.GoVersion = some v ∧ 13 ≤ v) ∧
      (∀ exe ∈ vs, ∀ g ∈ ps, true ∈ trs → ∀ l ∈ ls, ∀ s ∈ ss, ∀ v : Int,
        parseMinor (ctx.goVersionOf exe) = some v → 13 ≤ v →
        ¬(l = "external" ∧ ctx.hostOS ≠ g) →
        mkConfig ctx ⟨exe, g, true, l, s⟩ ∈ cfgs) ∧
      (∀ c ∈ cfgs, (parseMinor c.GoVersion).isSome = true)) ∧
    (∀ exe ∈ vs, ps ≠ [] → trs ≠ [] → ls ≠ [] → ss ≠ [] →
      ctx.goVersionOf exe = exe →
      parseMinor (ctx.goVersionOf exe) = none →
      ∃ e, enumerate vs ps trs ls ss ctx = .error e) := by
  constructor
  · intro cfgs h
    have h' : runCombos ctx (combos vs ps trs ls ss) = .ok cfgs := h
    refine ⟨?_, ?_, ?_⟩
    · intro c hc hcTrim
      obtain ⟨t, htm, hbt⟩ := (runCombos_ok_mem h' c).mp hc
      obtain ⟨hv, v, hpm, hr⟩ := enumBody_ok_inv hbt
      by_cases h1 : t.trimpath ∧ v < 13
      · rw [if_pos h1] at hr; cases hr
      · rw [if_neg h1] at hr
        by_cases h2 : t.linkmode = "external" ∧ ctx.hostOS ≠ t.GOOS
        · rw [if_pos h2] at hr; cases hr
        · rw [if_neg h2] at hr
          injection hr with hc'
          subst hc'
          refine ⟨v, hpm, ?_⟩
          rcases lt_or_le v 13 with hlt | hle
          · exact absurd ⟨hcTrim, hlt⟩ h1
          · exact hle
    · intro exe hexe g hg htr l hl s hs v hpm h13 h2
      have hmem := mem_combos_of hexe hg htr hl hs
      obtain ⟨r, hbr⟩ := runCombos_ok_body h' _ hmem
      have hvm : ctx.goVersionOf exe = exe := (enumBody_ok_inv hbr).1
      have hb2 : enumBody ctx ⟨exe, g, true, l, s⟩ =
          .ok (some (mkConfig ctx ⟨exe, g, true, l, s⟩)) :=
        enumBody_ok_some_of hvm hpm
          (fun hcon => absurd hcon.2 (not_lt.mpr h13)) h2
      exact (runCombos_ok_mem h' _).mpr ⟨_, hmem, hb2⟩
    · intro c hc
      obtain ⟨t, htm, hbt⟩ := (runCombos_ok_mem h' c).mp hc
      obtain ⟨hv, v, hpm, hr⟩ := enumBody_ok_inv hbt
      by_cases h1 : t.trimpath ∧ v < 13
      · rw [if_pos h1] at hr; cases hr
      · rw [if_neg h1] at hr
        by_cases h2 : t.linkmode = "external" ∧ ctx.hostOS ≠ t.GOOS
        · rw [if_pos h2] at hr; cases hr
        · rw [if_neg h2] at hr
          injection hr with hc'
          subst hc'
          rw [show (mkConfig ctx t).GoVersion = ctx.goVersionOf t.exe from rfl,
            hpm]
          rfl
  · intro exe hexe hp htrs hls hss hv hpm
    obtain ⟨g, hg⟩ := List.exists_mem_of_ne_nil ps hp
    obtain ⟨tr, htr⟩ := List.exists_mem_of_ne_nil trs htrs
    obtain ⟨l, hl⟩ := List.exists_mem_of_ne_nil ls hls
    obtain ⟨s, hs⟩ := List.exists_mem_of_ne_nil ss hss
    have hmem := mem_combos_of hexe hg htr hl hs
    obtain ⟨e, hbe⟩ :=
      enumBody_error_of_parse_failure (t := ⟨exe, g, tr, l, s⟩) hv hpm
    exact runCombos_error_of_body_error hmem hbe

/-- Witness for C2: the filter conjuncts on the synthetic scenario, and the
fatality conjunct on a version axis whose entry `go1` has no second
dot-delimited component. -/
theorem trimpath_filter_witness :
    ((∀ c ∈ scenarioList, c.TrimPath = true →
        ∃ v : Int, parseMinor c.GoVersion = some v ∧ 13 ≤ v) ∧
      (∀ exe ∈ ["1.12", "1.13"], ∀ g ∈ ["linux", "windows"],
        true ∈ [false, true] → ∀ l ∈ ["internal"], ∀ s ∈ [false], ∀ v : Int,
        parseMinor (scenarioCtx.goVersionOf exe) = some v → 13 ≤ v →
        ¬(l = "external" ∧ scenarioCtx.hostOS ≠ g) →
        mkConfig scenarioCtx ⟨exe, g, true, l, s⟩ ∈ scenarioList) ∧
      (∀ c ∈ scenarioList, (parseMinor c.GoVersion).isSome = true)) ∧
    (∃ e, enumerate ["go1"] ["linux"] [false] ["internal"] [false]
        scenarioCtx = .error e) :=
  ⟨(trimpath_filter ["1.12", "1.13"] ["linux", "windows"] [false, true]
      ["internal"] [false] scenarioCtx).1 scenarioList rfl,
   (trimpath_filter ["go1"] ["linux"] [false] ["internal"] [false]
      scenarioCtx).2 "go1" (by decide) (by decide) (by decide) (by decide)
      (by decide) rfl rfl⟩

/-- C3: in any matrix the enumerator produces, a combination with external
link mode always targets the host platform (cross-linking never appears),
and external link mode combinations targeting the host platform are not
excluded by this filter. -/
theorem crosslink_filter (vs ps : List String) (trs : List Bool)
    (ls : List String) (ss : List Bool) (ctx : EnumCtx) (cfgs : List Config)
    (h : enumerate vs ps trs ls ss ctx = .ok cfgs) :
    (∀ c ∈ cfgs, c.LinkMode = "external" → c.GOOS = ctx.hostOS) ∧
    (∀ exe ∈ vs, ∀ tr ∈ trs, ∀ s ∈ ss, "external" ∈ ls → ctx.hostOS ∈ ps →
      ∀ v : Int, parseMinor (ctx.goVersionOf exe) = some v →
      ¬(tr ∧ v < 13) →
      mkConfig ctx ⟨exe, ctx.hostOS, tr, "external", s⟩ ∈ cfgs) := by
  have h' : runCombos ctx (combos vs ps trs ls ss) = .ok cfgs := h
  constructor
  · intro c hc hcLink
    obtain ⟨t, htm, hbt⟩ := (runCombos_ok_mem h' c).mp hc
    obtain ⟨hv, v, hpm, hr⟩ := enumBody_ok_inv hbt
    by_cases h1 : t.trimpath ∧ v < 13
    · rw [if_pos h1] at hr; cases hr
    · rw [if_neg h1] at hr
      by_cases h2 : t.linkmode = "external" ∧ ctx.hostOS ≠ t.GOOS
      · rw [if_pos h2] at hr; cases hr
      · rw [if_neg h2] at hr
        injection hr with hc'
        subst hc'
        by_cases hg : ctx.hostOS = t.GOOS
        · exact hg.symm
        · exact absurd ⟨hcLink, hg⟩ h2
  · intro exe hexe tr htr s hs hl hg v hpm h1
    have hmem := mem_combos_of hexe hg htr hl hs
    obtain ⟨r, hbr⟩ := runCombos_ok_body h' _ hmem
    have hvm : ctx.goVersionOf exe = exe := (enumBody_ok_inv hbr).1
    have hb2 : enumBody ctx ⟨exe, ctx.hostOS, tr, "external", s⟩ =
        .ok (some (mkConfig ctx ⟨exe, ctx.hostOS, tr, "external", s⟩)) :=
      enumBody_ok_some_of hvm hpm h1 (fun hcon => hcon.2 rfl)
    exact (runCombos_ok_mem h' _).mpr ⟨_, hmem, hb2⟩

/-- Witness for C3 with both link modes on the axes and a host platform
present among the targets. -/
theorem crosslink_filter_witness :
    (∀ c ∈ [mkConfig scenarioCtx ⟨"1.13", "linux", false, "internal", false⟩,
            mkConfig scenarioCtx ⟨"1.13", "linux", false, "external", false⟩],
      c.LinkMode = "external" → c.GOOS = scenarioCtx.hostOS) ∧
    (∀ exe ∈ ["1.13"], ∀ tr ∈ [false], ∀ s ∈ [false],
      "external" ∈ ["internal", "external"] →
      scenarioCtx.hostOS ∈ ["linux"] →
      ∀ v : Int, parseMinor (scenarioCtx.goVersionOf exe) = some v →
      ¬(tr ∧ v < 13) →
      mkConfig scenarioCtx ⟨exe, scenarioCtx.hostOS, tr, "external", s⟩ ∈
        [mkConfig scenarioCtx ⟨"1.13", "linux", false, "internal", false⟩,
         mkConfig scenarioCtx ⟨"1.13", "linux", false, "external", false⟩]) :=
  crosslink_filter ["1.13"] ["linux"] [false] ["internal", "external"]
    [false] scenarioCtx _ rfl

/-- C6: whenever the enumeration completes, its output is exactly the
cartesian product of the axes filtered pointwise by the trim-path and
cross-link conditions, and on the spec's synthetic axes it is exactly the
six expected combinations. -/
theorem enumeration_completeness :
    (∀ (vs ps : List String) (trs : List Bool) (ls : List String)
        (ss : List Bool) (ctx : EnumCtx) (cfgs : List Config),
      enumerate vs ps trs ls ss ctx = .ok cfgs →
      cfgs = (combos vs ps trs ls ss).filterMap (keptBySpec ctx)) ∧
    enumerate ["1.12", "1.13"] ["linux", "windows"] [false, true]
      ["internal"] [false] scenarioCtx = .ok scenarioList := by
  constructor
  · intro vs ps trs ls ss ctx cfgs h
    exact runCombos_ok_filterMap h
  · rfl

/-- Witness for C6: the synthetic scenario's output equals the filtered
cartesian product. -/
theorem enumeration_completeness_witness :
    scenarioList = (combos ["1.12", "1.13"] ["linux", "windows"]
      [false, true] ["internal"] [false]).filterMap (keptBySpec scenarioCtx) :=
  enumeration_completeness.1 ["1.12", "1.13"] ["linux", "windows"]
    [false, true] ["internal"] [false] scenarioCtx scenarioList rfl

/-- C7: in every reachable state of the semaphore model of `main`, at most
`N` tasks are spawned and unreleased (the admission bound), and once the
drain loop has reacquired the gate's full capacity every admitted task has
released its slot. -/
theorem semaphore_bound {N K : Nat} {s : SemState} (h : SemReach N K s) :
    s.active ≤ N ∧ (s.drained = N → s.active = 0) := by
  obtain ⟨h1, h2⟩ := semInvariant_of_reach h
  exact ⟨by omega, fun hd => by omega⟩

/-- Witness for C7: a state with one admitted task under capacity two. -/
theorem semaphore_bound_witness :
    (⟨2, 1, 1, 0⟩ : SemState).active ≤ 2 ∧
      ((⟨2, 1, 1, 0⟩ : SemState).drained = 2 →
        (⟨2, 1, 1, 0⟩ : SemState).active = 0) :=
  semaphore_bound
    (SemReach.step SemReach.init
      (SemStep.spawn ⟨3, 0, 0, 0⟩ (by decide) (by decide)))

/-- C8: whenever the inner axes are nonempty, a completed enumeration
implies every visited toolchain's self-reported version matched its expected
identifier, and a mismatching toolchain on the version axis makes the whole
enumeration fatal (it never proceeds to a successful result). -/
theorem version_selfcheck (vs ps : List String) (trs : List Bool)
    (ls : List String) (ss : List Bool) (ctx : EnumCtx)
    (hp : ps ≠ []) (htrs : trs ≠ []) (hls : ls ≠ []) (hss : ss ≠ []) :
    (∀ cfgs : List Config, enumerate vs ps trs ls ss ctx = .ok cfgs →
      ∀ exe ∈ vs, ctx.goVersionOf exe = exe) ∧
    (∀ exe ∈ vs, ctx.goVersionOf exe ≠ exe →
      ∃ e, enumerate vs ps trs ls ss ctx = .error e) := by
  obtain ⟨g, hg⟩ := List.exists_mem_of_ne_nil ps hp
  obtain ⟨tr, htr⟩ := List.exists_mem_of_ne_nil trs htrs
  obtain ⟨l, hl⟩ := List.exists_mem_of_ne_nil ls hls
  obtain ⟨s, hs⟩ := List.exists_mem_of_ne_nil ss hss
  constructor
  · intro cfgs h exe hexe
    have hmem := mem_combos_of hexe hg htr hl hs
    obtain ⟨r, hbr⟩ := runCombos_ok_body h _ hmem
    exact (enumBody_ok_inv hbr).1
  · intro exe hexe hne
    have hmem := mem_combos_of hexe hg htr hl hs
    obtain ⟨e, hbe⟩ := enumBody_error_of_mismatch (t := ⟨exe, g, tr, l, s⟩) hne
    exact runCombos_error_of_body_error hmem hbe

/-- Witness for C8 with a context whose self-reports all read `go1.14`. -/
theorem version_selfcheck_witness :
    (∀ cfgs : List Config,
      enumerate ["go1.13.8"] ["linux"] [false] ["internal"] [false]
        mismatchCtx = .ok cfgs →
      ∀ exe ∈ ["go1.13.8"], mismatchCtx.goVersionOf exe = exe) ∧
    (∀ exe ∈ ["go1.13.8"], mismatchCtx.goVersionOf exe ≠ exe →
      ∃ e, enumerate ["go1.13.8"] ["linux"] [false] ["internal"] [false]
        mismatchCtx = .error e) :=
  version_selfcheck ["go1.13.8"] ["linux"] [false] ["internal"] [false]
    mismatchCtx (by decide) (by decide) (by decide) (by decide)

end BuildVariants
